import Mathlib

/-!
Shallow embedding of the PR-lifecycle orchestrator from `pr.go` of the
app-platform-reviewapps repository.

The embedding models:
- the identity derivation `fmt.Sprintf("%s-%s-%d", repoOwner, repoName, prNum)`
  (`deriveAppName`),
- the app-spec transformation of `Handle` lines 190-224 (`transformSpec`),
- the two polling loops `waitForDeploymentTerminal` / `waitForAppLiveURL`
  (`pollFrom` plus its two instantiations) where the stream of fetch results is
  a function `Nat → Except String St` and the outcome of each `select` between
  context cancellation and the 2-second ticker is a function `Nat → Bool`
  (`true` means the cancellation branch wins), and
- `Handle` itself (`handle`), as a function of a `World` that supplies the
  response of every external call site; `handle` returns the Go function's
  result together with the trace of external calls it performed, in order.

Go machine integers (PR numbers, repository ids, deployment record ids) are
nonnegative in this domain (GitHub issues them as positive values), so they are
modelled as `Nat`.
-/

namespace ReviewApps

/-! ### Constants from `pr.go` -/

def canonicalAppSpecLocation : String := ".do/app.yaml"

def actionOpened : String := "opened"
def actionReopened : String := "reopened"
def actionClosed : String := "closed"
def actionSynchronize : String := "synchronize"

def deploymentStateInactive : String := "inactive"
def deploymentStateSuccess : String := "success"
def deploymentStateError : String := "error"

/-- godo's `DeploymentPhase_Active` constant. -/
def phaseActive : String := "ACTIVE"
/-- godo's `DeploymentPhase_Error` constant. -/
def phaseError : String := "ERROR"
/-- godo's `DeploymentPhase_Canceled` constant. -/
def phaseCanceled : String := "CANCELED"
/-- godo's `DeploymentPhase_Superseded` constant. -/
def phaseSuperseded : String := "SUPERSEDED"

/-! ### Data model -/

/-- The repository identity carried by a pull-request event. -/
structure Repo where
  owner : String
  name : String
  id : Nat
  deriving DecidableEq, Repr

/-- A parsed pull-request event, with the fields `Handle` reads. -/
structure PullRequestEvent where
  action : String
  repo : Repo
  number : Nat
  /-- Source field `event.GetPullRequest().GetHead().GetRef()` — the PR's head branch. -/
  headRef : String
  /-- Source field `event.GetPullRequest().GetHead().GetRepo().GetID()`. -/
  headRepoID : Nat
  deriving DecidableEq, Repr

/-- godo's `GitHubSourceSpec`: repo (as `owner/name`), branch, deploy-on-push flag. -/
structure GitHubSourceSpec where
  repo : String
  branch : String
  deployOnPush : Bool
  deriving DecidableEq, Repr

/-- One service/worker/job of an app spec: an opaque name plus the optional
GitHub source reference that the transformation may rewrite. -/
structure AppComponent where
  name : String
  github : Option GitHubSourceSpec
  deriving DecidableEq, Repr

/-- godo's `AppSpec`, restricted to the fields `Handle` reads or writes. -/
structure AppSpec where
  name : String
  domains : List String
  alerts : List String
  services : List AppComponent
  workers : List AppComponent
  jobs : List AppComponent
  deriving DecidableEq, Repr

/-- A platform-side (godo) deployment: opaque id and phase string. -/
structure DoDeployment where
  id : String
  phase : String
  deriving DecidableEq, Repr

/-- A platform-side (godo) app: opaque id and current live URL. -/
structure DoApp where
  id : String
  liveURL : String
  deriving DecidableEq, Repr

/-- A source-control (GitHub) deployment record: numeric id and the payload.
The payload is the JSON object `{"app_id": ...}`; `none` models a payload that
`json.Unmarshal` rejects, `some appID` a payload carrying that app id. -/
structure GhDeployment where
  id : Nat
  payload : Option String
  deriving DecidableEq, Repr

/-! ### Identity derivation (`pr.go` line 70) -/

/-- Line 70: `appName := fmt.Sprintf("%s-%s-%d", repoOwner, repoName, prNum)`. -/
def deriveAppName (owner repoName : String) (prNum : Nat) : String :=
  owner ++ "-" ++ repoName ++ "-" ++ Nat.repr prNum

/-! ### Spec transformation (`pr.go` lines 190-224) -/

/-- The per-reference rewrite of the loop at lines 216-224: references pointing
at other repos are skipped; matching ones get `DeployOnPush = false` and
`Branch = prBranch`. -/
def transformGitHubRef (repoFull prBranch : String) (g : GitHubSourceSpec) :
    GitHubSourceSpec :=
  if g.repo ≠ repoFull then g
  else { g with deployOnPush := false, branch := prBranch }

/-- Rewrite of a single component: the loops at lines 201-215 collect exactly
the non-nil GitHub references of services, workers and jobs, so per component
the rewrite applies to its GitHub reference when present. -/
def transformComponent (repoFull prBranch : String) (c : AppComponent) :
    AppComponent :=
  { c with github := c.github.map (transformGitHubRef repoFull prBranch) }

/-- The whole spec mutation of `Handle` lines 190-224: name overridden to the
derived app name, domains and alerts unset, and every matching GitHub source
reference of services, workers and jobs rewritten. -/
def transformSpec (spec : AppSpec) (appName owner repoName prBranch : String) :
    AppSpec :=
  let repoFull := owner ++ "/" ++ repoName
  { spec with
    name := appName
    domains := []
    alerts := []
    services := spec.services.map (transformComponent repoFull prBranch)
    workers := spec.workers.map (transformComponent repoFull prBranch)
    jobs := spec.jobs.map (transformComponent repoFull prBranch) }

/-! ### The polling primitive (`pr.go` lines 258-297) -/

/-- Function `isInTerminalPhase` from `pr.go` lines 300-306. -/
def isInTerminalPhase (d : DoDeployment) : Bool :=
  d.phase == phaseActive || d.phase == phaseError ||
    d.phase == phaseCanceled || d.phase == phaseSuperseded

/-- Outcome of a polling loop. -/
inductive PollResult (St : Type) where
  /-- The loop condition became false and the last fetched state is returned. -/
  | ok (s : St)
  /-- A fetch returned an error, which aborts the wait. -/
  | fetchErr (e : String)
  /-- The context's cancellation signal won the `select`. -/
  | canceled
  /-- Fuel exhausted: models a run on which the Go loop has not yet returned. -/
  | diverged
  deriving DecidableEq, Repr

/-- The common shape of `waitForDeploymentTerminal` and `waitForAppLiveURL`:
starting from a nil state (whose loop condition is true), the loop body
fetches, then `select`s between `ctx.Done()` and the ticker, then re-checks
the loop condition.  Equivalently, iteration `n` fetches, returns the
cancellation error if `cancelSel n`, returns the fetched state if `isTerm`
holds of it, and otherwise recurses.  `fuel` bounds the number of iterations
modelled; the Go loop has no internal bound. -/
def pollFrom {St : Type} (isTerm : St → Bool) (fetch : Nat → Except String St)
    (cancelSel : Nat → Bool) : Nat → Nat → PollResult St
  | 0, _ => .diverged
  | fuel + 1, n =>
    match fetch n with
    | .error e => .fetchErr e
    | .ok s =>
      if cancelSel n then .canceled
      else if isTerm s then .ok s
      else pollFrom isTerm fetch cancelSel fuel (n + 1)

/-- Function `waitForDeploymentTerminal` (lines 258-276): poll `GetDeployment` until the
deployment is in a terminal phase. -/
def waitForDeploymentTerminal (fetch : Nat → Except String DoDeployment)
    (cancelSel : Nat → Bool) (fuel : Nat) : PollResult DoDeployment :=
  pollFrom isInTerminalPhase fetch cancelSel fuel 0

/-- Function `waitForAppLiveURL` (lines 279-297): poll `Get` until the app's live URL is
non-empty. -/
def waitForAppLiveURL (fetch : Nat → Except String DoApp)
    (cancelSel : Nat → Bool) (fuel : Nat) : PollResult DoApp :=
  pollFrom (fun a => a.liveURL != "") fetch cancelSel fuel 0

/-! ### External calls of `Handle`

Each constructor is one call site of `Handle`, carrying the arguments the Go
code passes there.  The two polling helpers appear as single calls here; their
internal fetch loops are modelled separately by `pollFrom` above. -/

inductive Call where
  /-- Call site `h.cc.NewInstallationClient(installationID)` (line 72). -/
  | newInstallationClient
  /-- Call site `client.Repositories.ListDeployments` filtered by environment (line 116). -/
  | listGhDeployments (env : String)
  /-- Call site `h.do.Apps.Delete(ctx, appID)` (line 135). -/
  | deleteApp (appID : String)
  /-- Call sites `client.Repositories.CreateDeploymentStatus` (lines 89, 104, 140):
  record id, state string, optional environment URL. -/
  | createDeploymentStatus (ghDeploymentID : Nat) (state : String)
      (environmentURL : Option String)
  /-- Call site `h.do.Apps.CreateDeployment(ctx, appID)` (line 151). -/
  | doCreateDeployment (appID : String)
  /-- Call sites `client.Repositories.CreateDeployment` (lines 156, 234): ref, environment
  tag, and the app id carried in the payload. -/
  | ghCreateDeployment (ref : String) (env : String) (payloadAppID : String)
  /-- Call site `client.Repositories.GetContents` (line 175). -/
  | getContents (path : String) (ref : String)
  /-- Call site `h.do.Apps.Create` (line 227) with the transformed spec. -/
  | createApp (spec : AppSpec)
  /-- Call site `h.do.Apps.ListDeployments(ctx, appID, ...)` (line 245). -/
  | doListDeployments (appID : String)
  /-- The `waitForDeploymentTerminal` poll (line 83). -/
  | waitDeploymentTerminal (appID : String) (deploymentID : String)
  /-- The `waitForAppLiveURL` poll (line 99). -/
  | waitAppLiveURL (appID : String)
  deriving DecidableEq, Repr

/-- The environment of one `Handle` run: the response each external call site
receives, as a function of the arguments passed there.  `fetchSpec` collapses
the three consecutive steps `GetContents` / `GetContent` / yaml-unmarshal
(lines 175-188) into one result: any of the three failing aborts `Handle` with
a wrapped error, and on success `Handle` sees a parsed `AppSpec`. -/
structure World where
  installClient : Except String Unit
  ghListDeployments : String → Except String (List GhDeployment)
  deleteApp : String → Except String Unit
  createStatus : Nat → String → Option String → Except String Unit
  doCreateDeployment : String → Except String DoDeployment
  ghCreateDeployment : Except String GhDeployment
  fetchSpec : Except String AppSpec
  createApp : AppSpec → Except String DoApp
  doListDeployments : String → Except String (List DoDeployment)
  waitDeployment : String → String → Except String DoDeployment
  waitApp : String → Except String DoApp

/-- Result of one `Handle` run: Go's `nil`, a non-nil error with its message,
or a runtime panic (`Handle` has an unguarded index expression, line 250). -/
inductive HandleResult where
  | ok
  | err (msg : String)
  | panic (msg : String)
  deriving DecidableEq, Repr

/-- The `waitAndPropagate` closure (lines 82-113): wait for the platform
deployment to reach a terminal phase; if it is not active, report status
`error` (no environment URL) and return nil; otherwise wait for the app's live
URL and report status `success` with that URL. -/
def waitAndPropagate (w : World) (appID deploymentID : String)
    (ghDeploymentID : Nat) : HandleResult × List Call :=
  let c1 := Call.waitDeploymentTerminal appID deploymentID
  match w.waitDeployment appID deploymentID with
  | .error e => (.err ("failed to wait deployment to finish: " ++ e), [c1])
  | .ok d =>
    if d.phase ≠ phaseActive then
      let c2 := Call.createDeploymentStatus ghDeploymentID deploymentStateError none
      match w.createStatus ghDeploymentID deploymentStateError none with
      | .error e =>
        (.err ("failed to update deployment with failure: " ++ e), [c1, c2])
      | .ok _ => (.ok, [c1, c2])
    else
      let c2 := Call.waitAppLiveURL appID
      match w.waitApp appID with
      | .error e =>
        (.err ("failed to wait for app to have a live URL: " ++ e), [c1, c2])
      | .ok app =>
        let c3 := Call.createDeploymentStatus ghDeploymentID
          deploymentStateSuccess (some app.liveURL)
        match w.createStatus ghDeploymentID deploymentStateSuccess
            (some app.liveURL) with
        | .error e => (.err ("failed to update deployment: " ++ e), [c1, c2, c3])
        | .ok _ => (.ok, [c1, c2, c3])

/-- The wrapping `fmt.Errorf("failed to propagate deployment status: %w", err)`
applied at both call sites of `waitAndPropagate` (lines 167-169, 250-252). -/
def wrapPropagate : HandleResult → HandleResult
  | .err m => .err ("failed to propagate deployment status: " ++ m)
  | r => r

/-- The `closed`/`synchronize` branch of `Handle` (lines 115-172). -/
def handleClosedSync (w : World) (e : PullRequestEvent) (appName : String) :
    HandleResult × List Call :=
  let c1 := Call.listGhDeployments appName
  match w.ghListDeployments appName with
  | .error err => (.err ("failed to list deployments: " ++ err), [c1])
  | .ok deployments =>
    match deployments with
    | [] => (.ok, [c1])
    | deployment :: _ =>
      match deployment.payload with
      | none => (.err "failed to parse deployment payload", [c1])
      | some appID =>
        if e.action = actionClosed then
          let c2 := Call.deleteApp appID
          match w.deleteApp appID with
          | .error err => (.err ("failed to delete app: " ++ err), [c1, c2])
          | .ok _ =>
            let c3 := Call.createDeploymentStatus deployment.id
              deploymentStateInactive none
            match w.createStatus deployment.id deploymentStateInactive none with
            | .error err =>
              (.err ("failed to update deployment: " ++ err), [c1, c2, c3])
            | .ok _ => (.ok, [c1, c2, c3])
        else
          let c2 := Call.doCreateDeployment appID
          match w.doCreateDeployment appID with
          | .error err => (.err ("failed to create deployment: " ++ err), [c1, c2])
          | .ok d =>
            let c3 := Call.ghCreateDeployment e.headRef appName appID
            match w.ghCreateDeployment with
            | .error err =>
              (.err ("failed to create deployment: " ++ err), [c1, c2, c3])
            | .ok ghd =>
              let rtr := waitAndPropagate w appID d.id ghd.id
              (wrapPropagate rtr.fst, [c1, c2, c3] ++ rtr.snd)

/-- The `opened`/`reopened` branch of `Handle` (lines 174-254). -/
def handleOpened (w : World) (e : PullRequestEvent) (appName : String) :
    HandleResult × List Call :=
  let c1 := Call.getContents canonicalAppSpecLocation e.headRef
  match w.fetchSpec with
  | .error err => (.err ("failed to fetch app spec: " ++ err), [c1])
  | .ok rawSpec =>
    let spec := transformSpec rawSpec appName e.repo.owner e.repo.name e.headRef
    let c2 := Call.createApp spec
    match w.createApp spec with
    | .error err => (.err ("failed to create app: " ++ err), [c1, c2])
    | .ok app =>
      let c3 := Call.ghCreateDeployment e.headRef appName app.id
      match w.ghCreateDeployment with
      | .error err => (.err ("failed to create deployment: " ++ err), [c1, c2, c3])
      | .ok ghd =>
        let c4 := Call.doListDeployments app.id
        match w.doListDeployments app.id with
        | .error err =>
          (.err ("failed to list deployments: " ++ err), [c1, c2, c3, c4])
        | .ok ds =>
          match ds with
          | [] => (.panic "index out of range [0] with length 0", [c1, c2, c3, c4])
          | d0 :: _ =>
            let rtr := waitAndPropagate w app.id d0.id ghd.id
            (wrapPropagate rtr.fst, [c1, c2, c3, c4] ++ rtr.snd)

/-- Function `Handle` (lines 41-255), for an already-parsed event: the action switch,
the fork guard, the app-name derivation, the installation-client creation, and
the per-action branches. -/
def handle (w : World) (e : PullRequestEvent) : HandleResult × List Call :=
  if e.action ∉ [actionOpened, actionReopened, actionClosed, actionSynchronize]
  then (.ok, [])
  else if e.repo.id ≠ e.headRepoID then (.ok, [])
  else
    let appName := deriveAppName e.repo.owner e.repo.name e.number
    match w.installClient with
    | .error err =>
      (.err ("failed to create installation client: " ++ err),
        [Call.newInstallationClient])
    | .ok _ =>
      if e.action = actionClosed ∨ e.action = actionSynchronize then
        let rtr := handleClosedSync w e appName
        (rtr.fst, Call.newInstallationClient :: rtr.snd)
      else
        let rtr := handleOpened w e appName
        (rtr.fst, Call.newInstallationClient :: rtr.snd)

/-! ### Trace projections, for stating the claims -/

/-- The app-creation calls of a trace, with the spec passed to each. -/
def createAppCalls (tr : List Call) : List AppSpec :=
  tr.filterMap fun c =>
    match c with
    | .createApp s => some s
    | _ => none

/-- The source-control deployment-record creation calls of a trace:
(ref, environment tag, payload app id). -/
def ghCreateCalls (tr : List Call) : List (String × String × String) :=
  tr.filterMap fun c =>
    match c with
    | .ghCreateDeployment ref env pid => some (ref, env, pid)
    | _ => none

/-- The deployment-status update calls of a trace:
(record id, state, optional environment URL). -/
def statusCalls (tr : List Call) : List (Nat × String × Option String) :=
  tr.filterMap fun c =>
    match c with
    | .createDeploymentStatus i st url => some (i, st, url)
    | _ => none

/-- The platform deployment-creation calls of a trace. -/
def doCreateCalls (tr : List Call) : List String :=
  tr.filterMap fun c =>
    match c with
    | .doCreateDeployment appID => some appID
    | _ => none

/-! ### Postconditions of the spec transformation -/

/-- What happens to one GitHub source reference: a reference whose repo matches
the PR's repository gets the branch pinned and auto-deploy disabled (all other
fields kept), any other reference is untouched. -/
def RefTransformed (repoFull prBranch : String) (g g2 : GitHubSourceSpec) : Prop :=
  if g.repo = repoFull
  then g2 = { repo := g.repo, branch := prBranch, deployOnPush := false }
  else g2 = g

/-- What happens to one service/worker/job: its other fields are kept, and its
GitHub source reference (when present) is rewritten per `RefTransformed`. -/
def ComponentTransformed (repoFull prBranch : String) (c c2 : AppComponent) :
    Prop :=
  c2.name = c.name ∧
  match c.github with
  | none => c2.github = none
  | some g => ∃ g2, c2.github = some g2 ∧ RefTransformed repoFull prBranch g g2

/-! ### Decimal-representation helpers

`deriveAppName` embeds the PR number via `Nat.repr`; to reason about identity
collisions we need that `Nat.repr` is injective, which we obtain from a
digit-value round trip. -/

/-- Numeric value of a decimal digit character. -/
def digitVal (c : Char) : Nat := c.toNat - '0'.toNat

/-- Value of a digit string, most significant digit first. -/
def valOfDigits (l : List Char) : Nat :=
  l.foldl (fun acc c => acc * 10 + digitVal c) 0

/-! ### Concrete fixtures (used by the witnesses below) -/

def exRepo : Repo := { owner := "acme", name := "widgets", id := 7 }

/-- A non-fork `opened` event: PR 42 on acme/widgets, head branch feature-1. -/
def exEvent : PullRequestEvent :=
  { action := actionOpened, repo := exRepo, number := 42,
    headRef := "feature-1", headRepoID := 7 }

def exGitHubRef : GitHubSourceSpec :=
  { repo := "acme/widgets", branch := "main", deployOnPush := true }

def exRawSpec : AppSpec :=
  { name := "widgets", domains := ["widgets.example.com"], alerts := ["CPU"],
    services := [{ name := "web", github := some exGitHubRef }],
    workers := [], jobs := [] }

def exApp : DoApp := { id := "app-1", liveURL := "https://w.example.test" }

def exGhDeployment : GhDeployment := { id := 100, payload := some "app-1" }

def exDoDeployment : DoDeployment := { id := "dep-1", phase := phaseActive }

/-- A world in which every external call succeeds and the initial deployment
becomes active. -/
def wOk : World :=
  { installClient := .ok ()
    ghListDeployments := fun _ => .ok [exGhDeployment]
    deleteApp := fun _ => .ok ()
    createStatus := fun _ _ _ => .ok ()
    doCreateDeployment := fun _ => .ok exDoDeployment
    ghCreateDeployment := .ok exGhDeployment
    fetchSpec := .ok exRawSpec
    createApp := fun _ => .ok exApp
    doListDeployments := fun _ => .ok [exDoDeployment]
    waitDeployment := fun _ _ => .ok exDoDeployment
    waitApp := fun _ => .ok exApp }

/-- The example event as a `closed` event. -/
def exEventClosed : PullRequestEvent := { exEvent with action := actionClosed }

/-- The example event as a `synchronize` event. -/
def exEventSync : PullRequestEvent :=
  { exEvent with action := actionSynchronize }

/-- The example event coming from a fork: head repo id differs from base. -/
def exEventFork : PullRequestEvent := { exEvent with headRepoID := 8 }

/-- A deployment that ended in the terminal phase `ERROR`. -/
def exErrDeployment : DoDeployment := { id := "dep-1", phase := phaseError }

/-- Like `wOk`, except that the polled deployment ends in phase `ERROR`. -/
def wErrPhase : World := { wOk with waitDeployment := fun _ _ => .ok exErrDeployment }

/-- Like `wOk`, except that every deployment-status update fails. -/
def wStatusFail : World :=
  { wOk with createStatus := fun _ _ _ => .error "boom" }

/-- Like `wOk`, except that the platform's deployment list comes back empty. -/
def wNoDeployments : World :=
  { wOk with doListDeployments := fun _ => .ok [] }

/-- A fetch stream that always yields the active example deployment. -/
def fetchActive : Nat → Except String DoDeployment :=
  fun _ => .ok exDoDeployment

/-- A fetch stream that always yields the example app (non-empty live URL). -/
def fetchLive : Nat → Except String DoApp := fun _ => .ok exApp

/-- A `select` outcome stream on which cancellation never wins. -/
def noCancel : Nat → Bool := fun _ => false

/-- A `select` outcome stream on which cancellation always wins. -/
def yesCancel : Nat → Bool := fun _ => true

/-! ## Helper lemmas: decimal representation -/

theorem digitVal_digitChar (m : Nat) (h : m < 10) :
    digitVal (Nat.digitChar m) = m := by
  interval_cases m <;> rfl

theorem toDigitsCore_append (b : Nat) :
    ∀ (fuel n : Nat) (ds : List Char),
      Nat.toDigitsCore b fuel n ds = Nat.toDigitsCore b fuel n [] ++ ds := by
  intro fuel
  induction fuel with
  | zero => intro n ds; simp [Nat.toDigitsCore]
  | succ f ih =>
    intro n ds
    simp only [Nat.toDigitsCore]
    by_cases h : n / b = 0
    · simp [h]
    · simp only [h, if_false]
      rw [ih (n / b) (Nat.digitChar (n % b) :: ds),
        ih (n / b) [Nat.digitChar (n % b)]]
      simp

theorem valOfDigits_append (l : List Char) (c : Char) :
    valOfDigits (l ++ [c]) = valOfDigits l * 10 + digitVal c := by
  simp [valOfDigits, List.foldl_append]

theorem valOfDigits_toDigitsCore :
    ∀ (fuel n : Nat), n < 10 ^ fuel →
      valOfDigits (Nat.toDigitsCore 10 fuel n []) = n := by
  intro fuel
  induction fuel with
  | zero =>
    intro n h
    simp only [Nat.pow_zero, Nat.lt_one_iff] at h
    simp [Nat.toDigitsCore, valOfDigits, h]
  | succ f ih =>
    intro n h
    simp only [Nat.toDigitsCore]
    by_cases h0 : n / 10 = 0
    · have hn : n < 10 := by omega
      have hmod : n % 10 = n := Nat.mod_eq_of_lt hn
      simp [h0, valOfDigits, hmod, digitVal_digitChar n hn]
    · simp only [h0, if_false]
      rw [toDigitsCore_append, valOfDigits_append]
      have hp : 10 ^ (f + 1) = 10 ^ f * 10 := pow_succ 10 f
      have hdiv : n / 10 < 10 ^ f := by omega
      rw [ih (n / 10) hdiv, digitVal_digitChar (n % 10) (by omega)]
      omega

theorem valOfDigits_repr (n : Nat) : valOfDigits (Nat.repr n).data = n := by
  have h : n < 10 ^ (n + 1) :=
    lt_of_lt_of_le (Nat.lt_pow_self (by norm_num) n)
      (Nat.pow_le_pow_right (by norm_num) (Nat.le_succ n))
  exact valOfDigits_toDigitsCore (n + 1) n h

theorem Nat_repr_data_inj {n m : Nat}
    (h : (Nat.repr n).data = (Nat.repr m).data) : n = m := by
  have h1 : valOfDigits (Nat.repr n).data = valOfDigits (Nat.repr m).data := by
    rw [h]
  rwa [valOfDigits_repr, valOfDigits_repr] at h1

/-! ## C2: the identity derivation -/

/-- Claim C2, amended: `deriveAppName` is deterministic and, for a fixed owner
and repository name, injective in the PR number: two identities of the same
repository agree exactly when the PR numbers agree. -/
theorem deriveAppName_eq_iff (o r : String) (n m : Nat) :
    deriveAppName o r n = deriveAppName o r m ↔ n = m := by
  constructor
  · intro h
    apply Nat_repr_data_inj
    have hd := congrArg String.data h
    simpa only [deriveAppName, String.data_append, List.append_assoc,
      List.cons_append, List.nil_append, List.append_cancel_left_eq,
      List.cons.injEq, true_and] using hd
  · rintro rfl
    rfl

/-- Claim C2, counterexample: two distinct (owner, repo, PR-number) tuples whose
derived identities coincide, so the derivation is not injective over all
tuples. -/
theorem deriveAppName_collision :
    deriveAppName "a-b" "c" 1 = deriveAppName "a" "b-c" 1 ∧
      ¬("a-b" = "a" ∧ "c" = "b-c" ∧ (1 : Nat) = 1) := by
  decide

/-! ## C8: the fork guard -/

/-- Claim C8: on an event whose head repository id differs from the base
repository id, `Handle` performs no external call at all and returns nil. -/
theorem handle_fork_noop (w : World) (e : PullRequestEvent)
    (h : e.repo.id ≠ e.headRepoID) : handle w e = (.ok, []) := by
  unfold handle
  by_cases ha :
      e.action ∈ [actionOpened, actionReopened, actionClosed, actionSynchronize]
  · simp [ha, h]
  · simp [ha]

theorem handle_fork_noop_w : handle wOk exEventFork = (.ok, []) :=
  handle_fork_noop wOk exEventFork (by decide)

/-! ## C9: the unguarded index on the opened path -/

/-- Claim C9: on the `opened`/`reopened` path, when every call up to the
platform's deployment listing succeeds but that listing is empty, `Handle`
panics on the out-of-bounds index `ds[0]` instead of returning an error. -/
theorem handle_opened_empty_deployments_panics (w : World)
    (e : PullRequestEvent) (spec0 : AppSpec) (app : DoApp) (ghd : GhDeployment)
    (hact : e.action = actionOpened ∨ e.action = actionReopened)
    (hfork : e.repo.id = e.headRepoID)
    (hic : w.installClient = .ok ())
    (hspec : w.fetchSpec = .ok spec0)
    (happ : w.createApp (transformSpec spec0
      (deriveAppName e.repo.owner e.repo.name e.number)
      e.repo.owner e.repo.name e.headRef) = .ok app)
    (hghd : w.ghCreateDeployment = .ok ghd)
    (hls : w.doListDeployments app.id = .ok []) :
    (handle w e).fst = .panic "index out of range [0] with length 0" := by
  rcases hact with h | h <;>
    simp [handle, handleOpened, h, hfork, hic, hspec, happ, hghd, hls,
      actionOpened, actionReopened, actionClosed, actionSynchronize]

theorem handle_opened_empty_deployments_panics_w :
    (handle wNoDeployments exEvent).fst =
      .panic "index out of range [0] with length 0" :=
  handle_opened_empty_deployments_panics wNoDeployments exEvent exRawSpec exApp
    exGhDeployment (Or.inl rfl) rfl rfl rfl rfl rfl rfl

/-! ## Poller lemmas -/

/-- Running the loop from index `n`: if the fetches before relative index `k`
succeed with non-terminal states and un-canceled waits, and the fetch at `k`
succeeds with a terminal state and an un-canceled wait, the loop returns that
state. -/
theorem pollFrom_ok_of_first_terminal {St : Type} (isTerm : St → Bool)
    (fetch : Nat → Except String St) (cancelSel : Nat → Bool) (s : St) :
    ∀ (k fuel n : Nat), k < fuel →
      (∀ j, j < k → ∃ sj, fetch (n + j) = .ok sj ∧ isTerm sj = false) →
      (∀ j, j ≤ k → cancelSel (n + j) = false) →
      fetch (n + k) = .ok s → isTerm s = true →
      pollFrom isTerm fetch cancelSel fuel n = .ok s := by
  intro k
  induction k with
  | zero =>
    intro fuel n hf _ hc hk hs
    obtain ⟨f, rfl⟩ : ∃ f, fuel = f + 1 := ⟨fuel - 1, by omega⟩
    rw [Nat.add_zero] at hk
    have hc0 := hc 0 (Nat.le_refl 0)
    rw [Nat.add_zero] at hc0
    simp [pollFrom, hk, hc0, hs]
  | succ k ih =>
    intro fuel n hf hpre hc hk hs
    obtain ⟨f, rfl⟩ : ∃ f, fuel = f + 1 := ⟨fuel - 1, by omega⟩
    obtain ⟨s0, h0, h0t⟩ := hpre 0 (by omega)
    rw [Nat.add_zero] at h0
    have hc0 := hc 0 (by omega)
    rw [Nat.add_zero] at hc0
    simp only [pollFrom, h0, hc0, h0t, Bool.false_eq_true, if_false]
    refine ih f (n + 1) (by omega) ?_ ?_ ?_ hs
    · intro j hj
      have := hpre (j + 1) (by omega)
      rwa [show n + (j + 1) = n + 1 + j by omega] at this
    · intro j hj
      have := hc (j + 1) (by omega)
      rwa [show n + (j + 1) = n + 1 + j by omega] at this
    · rwa [show n + (k + 1) = n + 1 + k by omega] at hk

/-- Running the loop from index `n`: if the fetches before relative index `k`
succeed with non-terminal states and un-canceled waits, and at `k` the fetch
succeeds but the cancellation signal wins the `select`, the loop returns the
cancellation error — even when the state fetched at `k` is terminal. -/
theorem pollFrom_canceled_of_cancel {St : Type} (isTerm : St → Bool)
    (fetch : Nat → Except String St) (cancelSel : Nat → Bool) (s : St) :
    ∀ (k fuel n : Nat), k < fuel →
      (∀ j, j < k → ∃ sj, fetch (n + j) = .ok sj ∧ isTerm sj = false) →
      (∀ j, j < k → cancelSel (n + j) = false) →
      fetch (n + k) = .ok s → cancelSel (n + k) = true →
      pollFrom isTerm fetch cancelSel fuel n = .canceled := by
  intro k
  induction k with
  | zero =>
    intro fuel n hf _ _ hk hcancel
    obtain ⟨f, rfl⟩ : ∃ f, fuel = f + 1 := ⟨fuel - 1, by omega⟩
    rw [Nat.add_zero] at hk hcancel
    simp [pollFrom, hk, hcancel]
  | succ k ih =>
    intro fuel n hf hpre hc hk hcancel
    obtain ⟨f, rfl⟩ : ∃ f, fuel = f + 1 := ⟨fuel - 1, by omega⟩
    obtain ⟨s0, h0, h0t⟩ := hpre 0 (by omega)
    rw [Nat.add_zero] at h0
    have hc0 := hc 0 (by omega)
    rw [Nat.add_zero] at hc0
    simp only [pollFrom, h0, hc0, h0t, Bool.false_eq_true, if_false]
    refine ih f (n + 1) (by omega) ?_ ?_ ?_ ?_
    · intro j hj
      have := hpre (j + 1) (by omega)
      rwa [show n + (j + 1) = n + 1 + j by omega] at this
    · intro j hj
      have := hc (j + 1) (by omega)
      rwa [show n + (j + 1) = n + 1 + j by omega] at this
    · rwa [show n + (k + 1) = n + 1 + k by omega] at hk
    · rwa [show n + (k + 1) = n + 1 + k by omega] at hcancel

/-! ## C4: the poller returns the first terminal state and stops fetching -/

/-- Claim C4: for every fetch/predicate pair, when the fetch at index `k` is the
first whose state satisfies the terminal predicate (and the caller does not
cancel), the poller returns exactly that fetched state; moreover the result is
the same for every fetch stream that agrees up to index `k`, i.e. the fetch
operation is never consulted after the satisfying fetch. -/
theorem pollFrom_first_terminal_returns {St : Type} (isTerm : St → Bool)
    (fetch fetch2 : Nat → Except String St) (cancelSel : Nat → Bool) (s : St)
    (k fuel : Nat)
    (hfuel : k < fuel)
    (hpre : ∀ j, j < k → ∃ sj, fetch j = .ok sj ∧ isTerm sj = false)
    (hcancel : ∀ j, j ≤ k → cancelSel j = false)
    (hk : fetch k = .ok s) (hs : isTerm s = true)
    (hagree : ∀ j, j ≤ k → fetch2 j = fetch j) :
    pollFrom isTerm fetch2 cancelSel fuel 0 = .ok s := by
  refine pollFrom_ok_of_first_terminal isTerm fetch2 cancelSel s k fuel 0 hfuel
    ?_ ?_ ?_ hs
  · intro j hj
    obtain ⟨sj, hj1, hj2⟩ := hpre j hj
    exact ⟨sj, by rw [Nat.zero_add, hagree j (by omega)]; exact hj1, hj2⟩
  · intro j hj
    rw [Nat.zero_add]
    exact hcancel j hj
  · rw [Nat.zero_add, hagree k (Nat.le_refl k)]
    exact hk

theorem pollFrom_first_terminal_returns_w :
    pollFrom isInTerminalPhase fetchActive noCancel 1 0 = .ok exDoDeployment :=
  pollFrom_first_terminal_returns isInTerminalPhase fetchActive fetchActive
    noCancel exDoDeployment 0 1 (by decide)
    (fun j hj => absurd hj (by omega)) (fun j _ => rfl) rfl (by decide)
    (fun j _ => rfl)

/-! ## C10: cancellation during the final wait wins in both pollers -/

/-- Claim C10: in both `waitForDeploymentTerminal` and `waitForAppLiveURL`, a
fetch that already satisfies the loop's exit condition is still followed by one
`select` on the ticker and the cancellation signal; if the cancellation signal
wins that final wait, the poller returns the cancellation error instead of the
already-fetched satisfying state. -/
theorem pollers_cancellation_before_return
    (fetchD : Nat → Except String DoDeployment) (cancelD : Nat → Bool)
    (d : DoDeployment) (k fuelD : Nat)
    (fetchA : Nat → Except String DoApp) (cancelA : Nat → Bool)
    (a : DoApp) (m fuelA : Nat)
    (hfD : k < fuelD)
    (hpreD : ∀ j, j < k →
      ∃ dj, fetchD j = .ok dj ∧ isInTerminalPhase dj = false)
    (hcD : ∀ j, j < k → cancelD j = false)
    (hkD : fetchD k = .ok d) (hdterm : isInTerminalPhase d = true)
    (hcanD : cancelD k = true)
    (hfA : m < fuelA)
    (hpreA : ∀ j, j < m → ∃ aj, fetchA j = .ok aj ∧ (aj.liveURL != "") = false)
    (hcA : ∀ j, j < m → cancelA j = false)
    (hkA : fetchA m = .ok a) (halive : (a.liveURL != "") = true)
    (hcanA : cancelA m = true) :
    waitForDeploymentTerminal fetchD cancelD fuelD = .canceled ∧
      waitForAppLiveURL fetchA cancelA fuelA = .canceled := by
  constructor
  · refine pollFrom_canceled_of_cancel isInTerminalPhase fetchD cancelD d k
      fuelD 0 hfD ?_ ?_ ?_ ?_
    · intro j hj; rw [Nat.zero_add]; exact hpreD j hj
    · intro j hj; rw [Nat.zero_add]; exact hcD j hj
    · rw [Nat.zero_add]; exact hkD
    · rw [Nat.zero_add]; exact hcanD
  · refine pollFrom_canceled_of_cancel (fun x => x.liveURL != "") fetchA
      cancelA a m fuelA 0 hfA ?_ ?_ ?_ ?_
    · intro j hj; rw [Nat.zero_add]; exact hpreA j hj
    · intro j hj; rw [Nat.zero_add]; exact hcA j hj
    · rw [Nat.zero_add]; exact hkA
    · rw [Nat.zero_add]; exact hcanA

theorem pollers_cancellation_before_return_w :
    waitForDeploymentTerminal fetchActive yesCancel 1 = .canceled ∧
      waitForAppLiveURL fetchLive yesCancel 1 = .canceled :=
  pollers_cancellation_before_return fetchActive yesCancel exDoDeployment 0 1
    fetchLive yesCancel exApp 0 1
    (by decide) (fun j hj => absurd hj (by omega)) (fun j hj => absurd hj (by omega))
    rfl (by decide) rfl
    (by decide) (fun j hj => absurd hj (by omega)) (fun j hj => absurd hj (by omega))
    rfl (by decide) rfl

/-! ## Helper lemmas: trace projections -/

theorem createAppCalls_append (l1 l2 : List Call) :
    createAppCalls (l1 ++ l2) = createAppCalls l1 ++ createAppCalls l2 := by
  simp [createAppCalls]

theorem ghCreateCalls_append (l1 l2 : List Call) :
    ghCreateCalls (l1 ++ l2) = ghCreateCalls l1 ++ ghCreateCalls l2 := by
  simp [ghCreateCalls]

theorem statusCalls_append (l1 l2 : List Call) :
    statusCalls (l1 ++ l2) = statusCalls l1 ++ statusCalls l2 := by
  simp [statusCalls]

theorem doCreateCalls_append (l1 l2 : List Call) :
    doCreateCalls (l1 ++ l2) = doCreateCalls l1 ++ doCreateCalls l2 := by
  simp [doCreateCalls]

/-- The wait-and-propagate sequence performs no app creation, no
source-control deployment-record creation, and no platform deployment
creation: its trace holds only waits and status updates. -/
theorem waitAndPropagate_calls_only (w : World) (a i : String) (g : Nat) :
    createAppCalls (waitAndPropagate w a i g).snd = [] ∧
      ghCreateCalls (waitAndPropagate w a i g).snd = [] ∧
      doCreateCalls (waitAndPropagate w a i g).snd = [] := by
  unfold waitAndPropagate
  rcases h1 : w.waitDeployment a i with e | d
  · simp [createAppCalls, ghCreateCalls, doCreateCalls]
  · by_cases hp : d.phase = phaseActive
    · rcases h2 : w.waitApp a with e | app
      · simp [hp, h2, createAppCalls, ghCreateCalls, doCreateCalls]
      · rcases h3 : w.createStatus g deploymentStateSuccess (some app.liveURL)
          with e | u <;>
          simp [hp, h2, h3, createAppCalls, ghCreateCalls, doCreateCalls]
    · rcases h3 : w.createStatus g deploymentStateError none with e | u <;>
        simp [hp, h3, createAppCalls, ghCreateCalls, doCreateCalls]

/-! ## C1: opened/reopened creates one app and one record -/

/-- Claim C1: on a successful `opened`/`reopened` handling of a non-fork PR,
`Handle` performs exactly one platform app-create call (with the transformed
spec) and exactly one source-control deployment-record creation, and that
record's payload carries exactly the id of the app the platform returned. -/
theorem handle_opened_one_app_one_record (w : World) (e : PullRequestEvent)
    (spec0 : AppSpec) (app : DoApp)
    (hact : e.action = actionOpened ∨ e.action = actionReopened)
    (hfork : e.repo.id = e.headRepoID)
    (hres : (handle w e).fst = .ok)
    (hic : w.installClient = .ok ())
    (hspec : w.fetchSpec = .ok spec0)
    (happ : w.createApp (transformSpec spec0
      (deriveAppName e.repo.owner e.repo.name e.number)
      e.repo.owner e.repo.name e.headRef) = .ok app) :
    createAppCalls (handle w e).snd =
      [transformSpec spec0 (deriveAppName e.repo.owner e.repo.name e.number)
        e.repo.owner e.repo.name e.headRef] ∧
    ghCreateCalls (handle w e).snd =
      [(e.headRef, deriveAppName e.repo.owner e.repo.name e.number, app.id)] := by
  rcases hact with h | h <;>
  · rcases hghd : w.ghCreateDeployment with eg | ghd
    · simp [handle, handleOpened, h, hfork, hic, hspec, happ, hghd,
        actionOpened, actionReopened, actionClosed, actionSynchronize,
        createAppCalls, ghCreateCalls]
    · rcases hls : w.doListDeployments app.id with el | ds
      · simp [handle, handleOpened, h, hfork, hic, hspec, happ, hghd, hls,
          actionOpened, actionReopened, actionClosed, actionSynchronize,
          createAppCalls, ghCreateCalls]
      · cases ds with
        | nil =>
          simp [handle, handleOpened, h, hfork, hic, hspec, happ, hghd, hls,
            actionOpened, actionReopened, actionClosed, actionSynchronize,
            createAppCalls, ghCreateCalls]
        | cons d0 drest =>
          obtain ⟨hwp1, hwp2, hwp3⟩ :=
            waitAndPropagate_calls_only w app.id d0.id ghd.id
          simp only [createAppCalls] at hwp1
          simp only [ghCreateCalls] at hwp2
          simp [handle, handleOpened, h, hfork, hic, hspec, happ, hghd, hls,
            actionOpened, actionReopened, actionClosed, actionSynchronize,
            createAppCalls, ghCreateCalls, hwp1, hwp2]

theorem handle_opened_one_app_one_record_w :
    createAppCalls (handle wOk exEvent).snd =
      [transformSpec exRawSpec
        (deriveAppName exEvent.repo.owner exEvent.repo.name exEvent.number)
        exEvent.repo.owner exEvent.repo.name exEvent.headRef] ∧
    ghCreateCalls (handle wOk exEvent).snd =
      [(exEvent.headRef,
        deriveAppName exEvent.repo.owner exEvent.repo.name exEvent.number,
        exApp.id)] :=
  handle_opened_one_app_one_record wOk exEvent exRawSpec exApp (Or.inl rfl)
    rfl (by decide) rfl rfl rfl

/-! ## C5: terminal-but-not-active deployments are reported, not errors -/

/-- Claim C5: on any event that reaches the wait-and-propagate sequence
(`opened`, `reopened` or `synchronize`), when the polled deployment comes back
in a terminal phase other than active, `Handle` reports exactly one status on
the source-control record — `error`, with no environment URL — and returns
nil. -/
theorem handle_terminal_not_active_reports_error (w : World)
    (e : PullRequestEvent) (spec0 : AppSpec) (app : DoApp) (ghd : GhDeployment)
    (d0 dterm dd : DoDeployment) (g0 : GhDeployment) (grest : List GhDeployment)
    (pid : String)
    (hact : e.action = actionOpened ∨ e.action = actionReopened ∨
      e.action = actionSynchronize)
    (hfork : e.repo.id = e.headRepoID)
    (hic : w.installClient = .ok ())
    (hspec : w.fetchSpec = .ok spec0)
    (happ : ∀ s, w.createApp s = .ok app)
    (hghd : w.ghCreateDeployment = .ok ghd)
    (hls : w.doListDeployments app.id = .ok [d0])
    (hgls : w.ghListDeployments
      (deriveAppName e.repo.owner e.repo.name e.number) = .ok (g0 :: grest))
    (hpl : g0.payload = some pid)
    (hdod : w.doCreateDeployment pid = .ok dd)
    (hwait : ∀ a i, w.waitDeployment a i = .ok dterm)
    (hterm : isInTerminalPhase dterm = true)
    (hphase : dterm.phase ≠ phaseActive)
    (hstatus : w.createStatus ghd.id deploymentStateError none = .ok ()) :
    (handle w e).fst = .ok ∧
      statusCalls (handle w e).snd = [(ghd.id, deploymentStateError, none)] := by
  rcases hact with h | h | h <;>
    simp [handle, handleOpened, handleClosedSync, waitAndPropagate,
      wrapPropagate, h, hfork, hic, hspec, happ, hghd, hls, hgls, hpl, hdod,
      hwait, hphase, hstatus, actionOpened, actionReopened, actionClosed,
      actionSynchronize, statusCalls]

theorem handle_terminal_not_active_reports_error_w :
    (handle wErrPhase exEvent).fst = .ok ∧
      statusCalls (handle wErrPhase exEvent).snd =
        [(exGhDeployment.id, deploymentStateError, none)] :=
  handle_terminal_not_active_reports_error wErrPhase exEvent exRawSpec exApp
    exGhDeployment exDoDeployment exErrDeployment exDoDeployment
    exGhDeployment [] "app-1" (Or.inl rfl) rfl rfl rfl (fun _ => rfl) rfl rfl
    rfl rfl rfl (fun _ _ => rfl) (by decide) (by decide) rfl

/-! ## C6: closed deletes the app, then updates the record -/

/-- Claim C6: on a `closed` event with an existing record, `Handle` deletes the
app first and only then updates the record's status to `inactive`; when the
deletion succeeds, the trace always holds the deletion followed by the status
update (the deletion is never rolled back), and the overall result is nil if
the update succeeds and a failure naming the status-update step if it fails. -/
theorem handle_closed_delete_then_update (w : World) (e : PullRequestEvent)
    (g0 : GhDeployment) (grest : List GhDeployment) (appID : String)
    (u : Except String Unit)
    (hact : e.action = actionClosed)
    (hfork : e.repo.id = e.headRepoID)
    (hic : w.installClient = .ok ())
    (hls : w.ghListDeployments
      (deriveAppName e.repo.owner e.repo.name e.number) = .ok (g0 :: grest))
    (hpl : g0.payload = some appID)
    (hdel : w.deleteApp appID = .ok ())
    (hupd : w.createStatus g0.id deploymentStateInactive none = u) :
    (handle w e).snd =
      [Call.newInstallationClient,
        Call.listGhDeployments (deriveAppName e.repo.owner e.repo.name e.number),
        Call.deleteApp appID,
        Call.createDeploymentStatus g0.id deploymentStateInactive none] ∧
      (handle w e).fst = (match u with
        | .ok _ => HandleResult.ok
        | .error m => HandleResult.err ("failed to update deployment: " ++ m)) := by
  cases u with
  | ok v =>
    cases v
    simp [handle, handleClosedSync, hact, hfork, hic, hls, hpl, hdel, hupd,
      actionOpened, actionReopened, actionClosed, actionSynchronize]
  | error m =>
    simp [handle, handleClosedSync, hact, hfork, hic, hls, hpl, hdel, hupd,
      actionOpened, actionReopened, actionClosed, actionSynchronize]

theorem handle_closed_delete_then_update_w :
    (handle wStatusFail exEventClosed).snd =
      [Call.newInstallationClient,
        Call.listGhDeployments
          (deriveAppName exEventClosed.repo.owner exEventClosed.repo.name
            exEventClosed.number),
        Call.deleteApp "app-1",
        Call.createDeploymentStatus exGhDeployment.id deploymentStateInactive
          none] ∧
      (handle wStatusFail exEventClosed).fst =
        (match (Except.error "boom" : Except String Unit) with
          | .ok _ => HandleResult.ok
          | .error m => HandleResult.err ("failed to update deployment: " ++ m)) :=
  handle_closed_delete_then_update wStatusFail exEventClosed exGhDeployment []
    "app-1" (.error "boom") rfl rfl rfl rfl rfl rfl rfl

/-! ## C7: when platform deployments are created -/

/-- Claim C7: a platform-side deployment is brought into being by the app-create
call on the `opened`/`reopened` path (exactly one app-create call and no
explicit deployment-create call there), by exactly one explicit
deployment-create call on every `synchronize` event that finds an existing
record, and never on a `closed` event — on `closed`, for every world, the
trace holds neither an app-create nor a deployment-create call. -/
theorem platform_deployment_creation_policy (w : World) (e : PullRequestEvent) :
    (e.action = actionClosed →
      doCreateCalls (handle w e).snd = [] ∧
        createAppCalls (handle w e).snd = []) ∧
    (∀ g0 grest pid, e.action = actionSynchronize →
      e.repo.id = e.headRepoID → w.installClient = .ok () →
      w.ghListDeployments (deriveAppName e.repo.owner e.repo.name e.number) =
        .ok (g0 :: grest) →
      g0.payload = some pid →
      doCreateCalls (handle w e).snd = [pid]) ∧
    (∀ spec0, (e.action = actionOpened ∨ e.action = actionReopened) →
      e.repo.id = e.headRepoID → w.installClient = .ok () →
      w.fetchSpec = .ok spec0 →
      createAppCalls (handle w e).snd =
        [transformSpec spec0 (deriveAppName e.repo.owner e.repo.name e.number)
          e.repo.owner e.repo.name e.headRef] ∧
        doCreateCalls (handle w e).snd = []) := by
  refine ⟨?_, ?_, ?_⟩
  · intro hact
    by_cases hfork : e.repo.id = e.headRepoID
    · rcases hic : w.installClient with ei | u
      · simp [handle, hact, hfork, hic, actionOpened, actionReopened,
          actionClosed, actionSynchronize, doCreateCalls, createAppCalls]
      · cases u
        rcases hgl : w.ghListDeployments
            (deriveAppName e.repo.owner e.repo.name e.number) with eg | gs
        · simp [handle, handleClosedSync, hact, hfork, hic, hgl, actionOpened,
            actionReopened, actionClosed, actionSynchronize, doCreateCalls,
            createAppCalls]
        · cases gs with
          | nil =>
            simp [handle, handleClosedSync, hact, hfork, hic, hgl,
              actionOpened, actionReopened, actionClosed, actionSynchronize,
              doCreateCalls, createAppCalls]
          | cons g0 grest =>
            rcases hpl : g0.payload with _ | pid
            · simp [handle, handleClosedSync, hact, hfork, hic, hgl, hpl,
                actionOpened, actionReopened, actionClosed, actionSynchronize,
                doCreateCalls, createAppCalls]
            · rcases hdel : w.deleteApp pid with ed | ud
              · simp [handle, handleClosedSync, hact, hfork, hic, hgl, hpl,
                  hdel, actionOpened, actionReopened, actionClosed,
                  actionSynchronize, doCreateCalls, createAppCalls]
              · cases ud
                rcases hst : w.createStatus g0.id deploymentStateInactive none
                  with es | us
                · simp [handle, handleClosedSync, hact, hfork, hic, hgl, hpl,
                    hdel, hst, actionOpened, actionReopened, actionClosed,
                    actionSynchronize, doCreateCalls, createAppCalls]
                · cases us
                  simp [handle, handleClosedSync, hact, hfork, hic, hgl, hpl,
                    hdel, hst, actionOpened, actionReopened, actionClosed,
                    actionSynchronize, doCreateCalls, createAppCalls]
    · simp [handle, hfork, hact, doCreateCalls, createAppCalls]
  · intro g0 grest pid hact hfork hic hgl hpl
    rcases hdod : w.doCreateDeployment pid with ed | dd
    · simp [handle, handleClosedSync, hact, hfork, hic, hgl, hpl, hdod,
        actionOpened, actionReopened, actionClosed, actionSynchronize,
        doCreateCalls]
    · rcases hghd : w.ghCreateDeployment with eg | ghd
      · simp [handle, handleClosedSync, hact, hfork, hic, hgl, hpl, hdod,
          hghd, actionOpened, actionReopened, actionClosed, actionSynchronize,
          doCreateCalls]
      · obtain ⟨hwp1, hwp2, hwp3⟩ :=
          waitAndPropagate_calls_only w pid dd.id ghd.id
        simp only [doCreateCalls] at hwp3
        simp [handle, handleClosedSync, hact, hfork, hic, hgl, hpl, hdod,
          hghd, actionOpened, actionReopened, actionClosed, actionSynchronize,
          doCreateCalls, hwp3]
  · intro spec0 hact hfork hic hspec
    rcases happ : w.createApp (transformSpec spec0
        (deriveAppName e.repo.owner e.repo.name e.number)
        e.repo.owner e.repo.name e.headRef) with ea | app
    · rcases hact with h | h <;>
        simp [handle, handleOpened, h, hfork, hic, hspec, happ, actionOpened,
          actionReopened, actionClosed, actionSynchronize, createAppCalls,
          doCreateCalls]
    · rcases hghd : w.ghCreateDeployment with eg | ghd
      · rcases hact with h | h <;>
          simp [handle, handleOpened, h, hfork, hic, hspec, happ, hghd,
            actionOpened, actionReopened, actionClosed, actionSynchronize,
            createAppCalls, doCreateCalls]
      · rcases hls : w.doListDeployments app.id with el | ds
        · rcases hact with h | h <;>
            simp [handle, handleOpened, h, hfork, hic, hspec, happ, hghd, hls,
              actionOpened, actionReopened, actionClosed, actionSynchronize,
              createAppCalls, doCreateCalls]
        · cases ds with
          | nil =>
            rcases hact with h | h <;>
              simp [handle, handleOpened, h, hfork, hic, hspec, happ, hghd,
                hls, actionOpened, actionReopened, actionClosed,
                actionSynchronize, createAppCalls, doCreateCalls]
          | cons d0 drest =>
            obtain ⟨hwp1, hwp2, hwp3⟩ :=
              waitAndPropagate_calls_only w app.id d0.id ghd.id
            simp only [createAppCalls] at hwp1
            simp only [doCreateCalls] at hwp3
            rcases hact with h | h <;>
              simp [handle, handleOpened, h, hfork, hic, hspec, happ, hghd,
                hls, actionOpened, actionReopened, actionClosed,
                actionSynchronize, createAppCalls, doCreateCalls, hwp1, hwp3]

theorem platform_deployment_creation_policy_w :
    (doCreateCalls (handle wOk exEventClosed).snd = [] ∧
      createAppCalls (handle wOk exEventClosed).snd = []) ∧
    doCreateCalls (handle wOk exEventSync).snd = ["app-1"] ∧
    (createAppCalls (handle wOk exEvent).snd =
      [transformSpec exRawSpec
        (deriveAppName exEvent.repo.owner exEvent.repo.name exEvent.number)
        exEvent.repo.owner exEvent.repo.name exEvent.headRef] ∧
      doCreateCalls (handle wOk exEvent).snd = []) :=
  ⟨(platform_deployment_creation_policy wOk exEventClosed).1 rfl,
    (platform_deployment_creation_policy wOk exEventSync).2.1 exGhDeployment []
      "app-1" rfl rfl rfl rfl rfl,
    (platform_deployment_creation_policy wOk exEvent).2.2 exRawSpec
      (Or.inl rfl) rfl rfl rfl⟩

/-! ## C3: the spec transformation -/

/-- Claim C3: the transformed spec's name is the environment identity, its
domains and alerts are cleared, and componentwise (services, workers, jobs in
order) each GitHub source reference whose repo is the PR repository's
`owner/name` has auto-deploy disabled and its branch set to the PR head
branch, every other reference being left unchanged. -/
theorem transformSpec_characterization (spec : AppSpec)
    (appName owner repoName prBranch : String) :
    (transformSpec spec appName owner repoName prBranch).name = appName ∧
    (transformSpec spec appName owner repoName prBranch).domains = [] ∧
    (transformSpec spec appName owner repoName prBranch).alerts = [] ∧
    List.Forall₂ (ComponentTransformed (owner ++ "/" ++ repoName) prBranch)
      spec.services
      (transformSpec spec appName owner repoName prBranch).services ∧
    List.Forall₂ (ComponentTransformed (owner ++ "/" ++ repoName) prBranch)
      spec.workers
      (transformSpec spec appName owner repoName prBranch).workers ∧
    List.Forall₂ (ComponentTransformed (owner ++ "/" ++ repoName) prBranch)
      spec.jobs (transformSpec spec appName owner repoName prBranch).jobs := by
  refine ⟨rfl, rfl, rfl, ?_, ?_, ?_⟩ <;>
  · show List.Forall₂ _ _ (List.map
      (transformComponent (owner ++ "/" ++ repoName) prBranch) _)
    rw [List.forall₂_map_right_iff, List.forall₂_same]
    intro c hc
    unfold ComponentTransformed
    refine ⟨rfl, ?_⟩
    cases hg : c.github with
    | none => simp [transformComponent, hg]
    | some g =>
      refine ⟨transformGitHubRef (owner ++ "/" ++ repoName) prBranch g,
        by simp [transformComponent, hg], ?_⟩
      unfold RefTransformed transformGitHubRef
      by_cases hr : g.repo = owner ++ "/" ++ repoName
      · simp [hr]
      · simp [hr]

end ReviewApps
